import Mathlib

/-!
Verification of the kkcrypto trade-candle pipeline.

Shallow embedding of the core of the repository:
* `src/models/trade.rs`, `src/models/trade_candle.rs`, `src/models/market_type.rs`
* `src/utils/trade_candle_builder.rs` (buffer update, flush, per-timeframe fan-out)
* the side-normalisation and raw-frame-sampling logic of
  `src/exchanges/{binance,bybit,hyperliquid}.rs`
* the period-to-collection routing of `src/db/mod.rs`

Rust `f64` prices/quantities are modelled as exact rationals (`ℚ`); `i64`
second timestamps as `ℤ` (Rust `/` on `i64` truncates toward zero, which is
`Int.tdiv`); `i32` counts as `ℤ`; the `HashMap` of buffers as an association
list with unique keys. UUID fields, logging and the async transport are
dropped: no claim mentions them.
-/

/-- Trade side (`Side` in `src/models/trade.rs`). -/
inductive Side where
  | Buy
  | Sell
deriving DecidableEq, Repr

/-- Market type (`MarketType` in `src/models/market_type.rs`). -/
inductive MarketType where
  | Spot
  | Linear
  | Inverse
deriving DecidableEq, Repr

/-- Canonical trade (`Trade` in `src/models/trade.rs`); the synthetic uuid and
the exchange-native trade id play no role in any claim and are omitted.
`timestamp` is whole seconds since the epoch. -/
structure Trade where
  exchange : String
  market_type : MarketType
  symbol : String
  price : ℚ
  quantity : ℚ
  side : Side
  timestamp : ℤ
deriving DecidableEq, Repr

/-- Per-key accumulation state (`TradeCandleBuffer` in
`src/utils/trade_candle_builder.rs`). -/
structure TradeCandleBuffer where
  ask_price : Option ℚ
  ask_volume : ℚ
  ask_count : ℤ
  bid_price : Option ℚ
  bid_volume : ℚ
  bid_count : ℤ
  timestamp : ℤ
deriving DecidableEq, Repr

/-- `TradeCandleBuffer::new` (trade_candle_builder.rs:24-34). -/
def TradeCandleBuffer.new (timestamp : ℤ) : TradeCandleBuffer :=
  { ask_price := none
    ask_volume := 0
    ask_count := 0
    bid_price := none
    bid_volume := 0
    bid_count := 0
    timestamp := timestamp }

/-- `TradeCandleBuffer::update` (trade_candle_builder.rs:36-65).
`unwrap_or(0.0)` on the current VWAP is `Option.getD 0`; the price field is
written only when the new total volume is strictly positive. -/
def TradeCandleBuffer.update (b : TradeCandleBuffer) (trade : Trade) : TradeCandleBuffer :=
  match trade.side with
  | Side.Sell =>
    let new_total_volume := b.bid_volume + trade.quantity
    let new_price :=
      if new_total_volume > 0 then
        some ((b.bid_price.getD 0 * b.bid_volume + trade.price * trade.quantity)
          / new_total_volume)
      else b.bid_price
    { b with
      bid_price := new_price
      bid_volume := new_total_volume
      bid_count := b.bid_count + 1 }
  | Side.Buy =>
    let new_total_volume := b.ask_volume + trade.quantity
    let new_price :=
      if new_total_volume > 0 then
        some ((b.ask_price.getD 0 * b.ask_volume + trade.price * trade.quantity)
          / new_total_volume)
      else b.ask_price
    { b with
      ask_price := new_price
      ask_volume := new_total_volume
      ask_count := b.ask_count + 1 }

/-- Output candle (`TradeCandle` in `src/models/trade_candle.rs`), without the
synthetic uuid. -/
structure TradeCandle where
  exchange : String
  market_type : MarketType
  symbol : String
  timestamp : ℤ
  period_seconds : ℤ
  ask_price : Option ℚ
  ask_volume : ℚ
  ask_count : ℤ
  bid_price : Option ℚ
  bid_volume : ℚ
  bid_count : ℤ
deriving DecidableEq, Repr

/-- `TradeCandleBuffer::to_trade_candle` (trade_candle_builder.rs:67-87).
Rust `i64` division truncates toward zero, hence `Int.tdiv`. -/
def TradeCandleBuffer.to_trade_candle (b : TradeCandleBuffer) (exchange : String)
    (market_type : MarketType) (symbol : String) (period_seconds : ℤ) : TradeCandle :=
  let candle_start := (Int.tdiv b.timestamp period_seconds) * period_seconds
  { exchange := exchange
    market_type := market_type
    symbol := symbol
    timestamp := candle_start
    period_seconds := period_seconds
    ask_price := b.ask_price
    ask_volume := b.ask_volume
    ask_count := b.ask_count
    bid_price := b.bid_price
    bid_volume := b.bid_volume
    bid_count := b.bid_count }

/-- Key of the buffer map: `(exchange, market_type, symbol, timeframe)`
(trade_candle_builder.rs:94). -/
structure BufferKey where
  exchange : String
  market_type : MarketType
  symbol : String
  timeframe : ℕ
deriving DecidableEq, Repr

/-- Association-list model of the `HashMap` of buffers. -/
abbrev BufferMap := List (BufferKey × TradeCandleBuffer)

/-- `HashMap` lookup on the association-list model. -/
def mapLookup (m : BufferMap) (k : BufferKey) : Option TradeCandleBuffer :=
  (m.find? (fun p => decide (p.1 = k))).map Prod.snd

/-- `entry(key).and_modify(f).or_insert_with(g)` on the association-list model
(trade_candle_builder.rs:158-169): modify the entry in place when the key is
present, append a freshly built one when it is absent. -/
def entryUpdate (m : BufferMap) (k : BufferKey) (f : TradeCandleBuffer → TradeCandleBuffer)
    (dflt : TradeCandleBuffer) : BufferMap :=
  match mapLookup m k with
  | some _ => m.map (fun p => if p.1 = k then (p.1, f p.2) else p)
  | none => m ++ [(k, dflt)]

/-- The aggregation engine's state (`TradeCandleBuilder` in
trade_candle_builder.rs:90-95); the channels are external and omitted. -/
structure TradeCandleBuilder where
  timeframes : List ℕ
  buffers : BufferMap

/-- The buffer key the builder uses for a trade and a timeframe
(trade_candle_builder.rs:150-155). -/
def tradeKey (trade : Trade) (timeframe : ℕ) : BufferKey :=
  { exchange := trade.exchange
    market_type := trade.market_type
    symbol := trade.symbol
    timeframe := timeframe }

/-- Body of the per-timeframe loop of `TradeCandleBuilder::process_trade`
(trade_candle_builder.rs:149-170): update the buffer when present, otherwise
insert `TradeCandleBuffer::new(trade.timestamp)` updated with the trade. -/
def processTimeframe (trade : Trade) (m : BufferMap) (timeframe : ℕ) : BufferMap :=
  entryUpdate m (tradeKey trade timeframe) (fun buffer => buffer.update trade)
    ((TradeCandleBuffer.new trade.timestamp).update trade)

/-- `TradeCandleBuilder::process_trade` (trade_candle_builder.rs:147-171). -/
def TradeCandleBuilder.process_trade (builder : TradeCandleBuilder) (trade : Trade) :
    TradeCandleBuilder :=
  { builder with buffers := builder.timeframes.foldl (processTimeframe trade) builder.buffers }

/-- The candles sent by `TradeCandleBuilder::flush_candles_for_timeframe`
(trade_candle_builder.rs:193-226): every buffer keyed with this timeframe whose
ask or bid count is non-zero is snapshotted via `to_trade_candle`. -/
def flushEmitted (m : BufferMap) (timeframe : ℕ) : List TradeCandle :=
  (m.filter (fun p =>
      decide (p.1.timeframe = timeframe) &&
        (decide (p.2.ask_count > 0) || decide (p.2.bid_count > 0)))).map
    (fun p => p.2.to_trade_candle p.1.exchange p.1.market_type p.1.symbol (timeframe : ℤ))

/-- `TradeCandleBuilder::flush_candles_for_timeframe`
(trade_candle_builder.rs:179-235): returns the builder with every buffer of this
timeframe removed, together with the emitted candles. -/
def TradeCandleBuilder.flush_candles_for_timeframe (builder : TradeCandleBuilder)
    (timeframe : ℕ) : TradeCandleBuilder × List TradeCandle :=
  ({ builder with
      buffers := builder.buffers.filter (fun p => decide (p.1.timeframe ≠ timeframe)) },
    flushEmitted builder.buffers timeframe)

/-- Binance side normalisation (binance.rs:104-108):
`is_buyer_maker = true` is `Buy`, `false` is `Sell`. -/
def binance_side (is_buyer_maker : Bool) : Side :=
  if is_buyer_maker then Side.Buy else Side.Sell

/-- Bybit side normalisation (bybit.rs:86-90): `"Buy"`, `"Sell"`, default `Buy`. -/
def bybit_side (s : String) : Side :=
  if s = "Buy" then Side.Buy
  else if s = "Sell" then Side.Sell
  else Side.Buy

/-- Hyperliquid side normalisation (hyperliquid.rs:80-84):
`"A"` is `Sell`, `"B"` is `Buy`, default `Buy`. -/
def hyperliquid_side (s : String) : Side :=
  if s = "A" then Side.Sell
  else if s = "B" then Side.Buy
  else Side.Buy

/-- One step of the raw-frame sampling counter of the adapters' message loops
(binance.rs:157-165, bybit.rs:155-163, hyperliquid.rs:146-154). `fetch_add(1)`
returns the counter value *before* the increment; the frame is flagged when
that value is `≡ 1 (mod raw_freq)`; the counter is reset to `0` once the
pre-increment value reaches one million. Returns (next counter, flagged). -/
def rawSampleStep (raw_freq : ℕ) (counter : ℕ) : ℕ × Bool :=
  let count := counter
  (if count ≥ 1000000 then 0 else count + 1, decide (count % raw_freq = 1))

/-- Counter value before the `n`-th message of the loop (1-based; `n = 0` is
the initial state `AtomicU64::new(0)`). -/
def rawSampleCounter (raw_freq : ℕ) : ℕ → ℕ
  | 0 => 0
  | n + 1 => (rawSampleStep raw_freq (rawSampleCounter raw_freq n)).1

/-- Whether the `n`-th inbound frame (1-based) is flagged for diagnostic
logging. -/
def rawSampleFlag (raw_freq : ℕ) (n : ℕ) : Bool :=
  (rawSampleStep raw_freq (rawSampleCounter raw_freq (n - 1))).2

/-- The `period_seconds` → collection-name match of
`Database::insert_trade_candle` (db/mod.rs:55-71); `none` is the
`_ => Err(Unsupported period)` arm. -/
def collectionName (period_seconds : ℤ) : Option String :=
  if period_seconds = 1 then some "candles_1s"
  else if period_seconds = 5 then some "candles_5s"
  else if period_seconds = 10 then some "candles_10s"
  else if period_seconds = 30 then some "candles_30s"
  else if period_seconds = 60 then some "candles_1m"
  else if period_seconds = 300 then some "candles_5m"
  else if period_seconds = 900 then some "candles_15m"
  else if period_seconds = 1800 then some "candles_30m"
  else if period_seconds = 3600 then some "candles_1h"
  else if period_seconds = 7200 then some "candles_2h"
  else if period_seconds = 14400 then some "candles_4h"
  else if period_seconds = 86400 then some "candles_1d"
  else none

/-- `Database::insert_trade_candle` (db/mod.rs:48-98) in dummy-connection mode:
the unsupported-period rejection happens before any database access, an
accepted candle is routed to its collection. -/
def insert_trade_candle (candle : TradeCandle) : Except String String :=
  match collectionName candle.period_seconds with
  | some name => Except.ok name
  | none => Except.error "Unsupported period"

/-- The periods the sink accepts (spec §6). -/
def supportedPeriods : List ℤ :=
  [1, 5, 10, 30, 60, 300, 900, 1800, 3600, 7200, 14400, 86400]

/-- Fold of `TradeCandleBuffer::update` over a list of trades, oldest first. -/
def applyTrades (b : TradeCandleBuffer) (ts : List Trade) : TradeCandleBuffer :=
  ts.foldl TradeCandleBuffer.update b

/-- `Σ q_i` over a list of trades. -/
def sumQ (ts : List Trade) : ℚ :=
  (ts.map Trade.quantity).sum

/-- `Σ p_i·q_i` over a list of trades. -/
def sumPQ (ts : List Trade) : ℚ :=
  (ts.map (fun t => t.price * t.quantity)).sum

/-- The VWAP field of the side a trade of side `s` accumulates into:
`Buy` trades go to the ask side, `Sell` trades to the bid side. -/
def sidePrice (b : TradeCandleBuffer) : Side → Option ℚ
  | Side.Buy => b.ask_price
  | Side.Sell => b.bid_price

/-- The volume field of the side a trade of side `s` accumulates into. -/
def sideVolume (b : TradeCandleBuffer) : Side → ℚ
  | Side.Buy => b.ask_volume
  | Side.Sell => b.bid_volume

/-- The count field of the side a trade of side `s` accumulates into. -/
def sideCount (b : TradeCandleBuffer) : Side → ℤ
  | Side.Buy => b.ask_count
  | Side.Sell => b.bid_count

/-- The per-side invariant of spec §3: zero count, null price and zero volume
coincide. -/
def sideInvariant (b : TradeCandleBuffer) (s : Side) : Prop :=
  (sideCount b s = 0 ↔ sidePrice b s = none) ∧
    (sidePrice b s = none ↔ sideVolume b s = 0)

/-- The buffer invariant of spec §3 on both sides. -/
def bufferInvariant (b : TradeCandleBuffer) : Prop :=
  sideInvariant b Side.Buy ∧ sideInvariant b Side.Sell

/-! ## Helper lemmas -/

lemma rawSampleCounter_eq (f : ℕ) : ∀ n : ℕ, n ≤ 1000000 → rawSampleCounter f n = n := by
  intro n
  induction n with
  | zero => intro _; rfl
  | succ m ih =>
    intro h
    have hm : m ≤ 1000000 := Nat.le_of_succ_le h
    have hlt : ¬ m ≥ 1000000 := by omega
    simp [rawSampleCounter, rawSampleStep, ih hm, hlt]

lemma collectionName_eq_none (p : ℤ) : collectionName p = none ↔ p ∉ supportedPeriods := by
  constructor
  · intro h hmem
    simp only [supportedPeriods, List.mem_cons, List.not_mem_nil, or_false] at hmem
    rcases hmem with h1|h1|h1|h1|h1|h1|h1|h1|h1|h1|h1|h1 <;> subst h1 <;>
      norm_num [collectionName] at h <;> exact Option.noConfusion h
  · intro h
    simp only [supportedPeriods, List.mem_cons, List.not_mem_nil, or_false] at h
    push_neg at h
    obtain ⟨h1, h2, h3, h4, h5, h6, h7, h8, h9, h10, h11, h12⟩ := h
    simp [collectionName, h1, h2, h3, h4, h5, h6, h7, h8, h9, h10, h11, h12]

/-! ## Claim theorems -/

/-- C5: side normalization is a pure total function of the exchange's native
side field: Binance `is_buyer_maker = true` maps to buy and `false` to sell;
Bybit `"Buy"` maps to buy, `"Sell"` to sell, any other string to buy;
Hyperliquid `"A"` maps to sell, `"B"` to buy, any other string to buy. -/
theorem C5_side_mapping :
    binance_side true = Side.Buy ∧ binance_side false = Side.Sell ∧
    bybit_side "Buy" = Side.Buy ∧ bybit_side "Sell" = Side.Sell ∧
    (∀ s : String, s ≠ "Buy" → s ≠ "Sell" → bybit_side s = Side.Buy) ∧
    hyperliquid_side "A" = Side.Sell ∧ hyperliquid_side "B" = Side.Buy ∧
    (∀ s : String, s ≠ "A" → s ≠ "B" → hyperliquid_side s = Side.Buy) := by
  refine ⟨rfl, rfl, by simp [bybit_side], by simp [bybit_side], ?_,
    by simp [hyperliquid_side], by simp [hyperliquid_side], ?_⟩
  · intro s h1 h2
    simp [bybit_side, h1, h2]
  · intro s h1 h2
    simp [hyperliquid_side, h1, h2]

/-- Witness for C5: the default arms at the concrete unrecognized string "X". -/
theorem C5_side_mapping_witness :
    bybit_side "X" = Side.Buy ∧ hyperliquid_side "X" = Side.Buy :=
  ⟨C5_side_mapping.2.2.2.2.1 "X" (by decide) (by decide),
    C5_side_mapping.2.2.2.2.2.2.2 "X" (by decide) (by decide)⟩

/-- C8 (code bug): with sampling frequency 100, the message loop flags inbound
frames 2, 102, 202, …, not 1, 101, 201, … as the adapters' own comments and the
spec state: `fetch_add(1)` returns the pre-increment counter, so the `n`-th
frame is flagged exactly when `(n − 1) % 100 = 1`. -/
theorem C8_sampler_off_by_one :
    rawSampleFlag 100 1 = false ∧ rawSampleFlag 100 101 = false ∧
      rawSampleFlag 100 201 = false ∧ rawSampleFlag 100 2 = true ∧
      rawSampleFlag 100 102 = true ∧ rawSampleFlag 100 202 = true := by
  have h0 := rawSampleCounter_eq 100 0 (by norm_num)
  have h100 := rawSampleCounter_eq 100 100 (by norm_num)
  have h200 := rawSampleCounter_eq 100 200 (by norm_num)
  have h1 := rawSampleCounter_eq 100 1 (by norm_num)
  have h101 := rawSampleCounter_eq 100 101 (by norm_num)
  have h201 := rawSampleCounter_eq 100 201 (by norm_num)
  refine ⟨?_, ?_, ?_, ?_, ?_, ?_⟩ <;> unfold rawSampleFlag <;>
    norm_num [h0, h100, h200, h1, h101, h201, rawSampleStep]

/-- C9: the sink accepts exactly the periods
{1, 5, 10, 30, 60, 300, 900, 1800, 3600, 7200, 14400, 86400}:
`insert_trade_candle` returns the unsupported-period error precisely for the
candles whose `period_seconds` lies outside this set. -/
theorem C9_supported_periods (candle : TradeCandle) :
    insert_trade_candle candle = Except.error "Unsupported period" ↔
      candle.period_seconds ∉ supportedPeriods := by
  rw [← collectionName_eq_none]
  unfold insert_trade_candle
  cases h : collectionName candle.period_seconds <;> simp [h]

/-- C10: `TradeCandleBuffer::update` touches only the side matching the trade:
a buy trade leaves the bid fields and the first-trade timestamp unchanged, a
sell trade leaves the ask fields and the first-trade timestamp unchanged. -/
theorem C10_update_only_matching_side (b : TradeCandleBuffer) (t : Trade) :
    (t.side = Side.Buy →
      (b.update t).bid_price = b.bid_price ∧ (b.update t).bid_volume = b.bid_volume ∧
        (b.update t).bid_count = b.bid_count ∧ (b.update t).timestamp = b.timestamp) ∧
    (t.side = Side.Sell →
      (b.update t).ask_price = b.ask_price ∧ (b.update t).ask_volume = b.ask_volume ∧
        (b.update t).ask_count = b.ask_count ∧ (b.update t).timestamp = b.timestamp) := by
  cases h : t.side <;> simp [TradeCandleBuffer.update, h]

/-- A concrete buy trade used by the witnesses. -/
def tradeBuy100 : Trade :=
  { exchange := "binance"
    market_type := MarketType.Spot
    symbol := "BTCUSDT"
    price := 100
    quantity := 1
    side := Side.Buy
    timestamp := 0 }

/-- Witness for C10 at a concrete buffer and buy trade. -/
theorem C10_update_only_matching_side_witness :
    ((TradeCandleBuffer.new 0).update tradeBuy100).bid_price = (TradeCandleBuffer.new 0).bid_price ∧
    ((TradeCandleBuffer.new 0).update tradeBuy100).bid_volume = (TradeCandleBuffer.new 0).bid_volume ∧
    ((TradeCandleBuffer.new 0).update tradeBuy100).bid_count = (TradeCandleBuffer.new 0).bid_count ∧
    ((TradeCandleBuffer.new 0).update tradeBuy100).timestamp = (TradeCandleBuffer.new 0).timestamp :=
  (C10_update_only_matching_side (TradeCandleBuffer.new 0) tradeBuy100).1 rfl

lemma update_matching_side (b : TradeCandleBuffer) (t : Trade) :
    sideVolume (b.update t) t.side = sideVolume b t.side + t.quantity ∧
    sideCount (b.update t) t.side = sideCount b t.side + 1 ∧
    sidePrice (b.update t) t.side =
      (if sideVolume b t.side + t.quantity > 0 then
        some (((sidePrice b t.side).getD 0 * sideVolume b t.side + t.price * t.quantity)
          / (sideVolume b t.side + t.quantity))
      else sidePrice b t.side) := by
  cases h : t.side <;>
    simp [TradeCandleBuffer.update, sideVolume, sideCount, sidePrice, h]

lemma applyTrades_same_side (s : Side) :
    ∀ (ts : List Trade) (b : TradeCandleBuffer),
      0 ≤ sideVolume b s →
      (∀ t ∈ ts, t.side = s) → (∀ t ∈ ts, 0 < t.quantity) → ts ≠ [] →
      sideVolume (applyTrades b ts) s = sideVolume b s + sumQ ts ∧
      sideCount (applyTrades b ts) s = sideCount b s + ts.length ∧
      sidePrice (applyTrades b ts) s =
        some (((sidePrice b s).getD 0 * sideVolume b s + sumPQ ts)
          / (sideVolume b s + sumQ ts)) := by
  intro ts
  induction ts with
  | nil => intro b _ _ _ hne; exact absurd rfl hne
  | cons t rest ih =>
    intro b hvol hside hq _
    have hts : t.side = s := hside t (List.mem_cons_self _ _)
    have hqt : 0 < t.quantity := hq t (List.mem_cons_self _ _)
    have hstep := update_matching_side b t
    rw [hts] at hstep
    have hpos : sideVolume b s + t.quantity > 0 := by linarith
    have happly : applyTrades b (t :: rest) = applyTrades (b.update t) rest := rfl
    have hvol1 : sideVolume (b.update t) s = sideVolume b s + t.quantity := hstep.1
    have hcount1 : sideCount (b.update t) s = sideCount b s + 1 := hstep.2.1
    have hprice1 : sidePrice (b.update t) s =
        some (((sidePrice b s).getD 0 * sideVolume b s + t.price * t.quantity)
          / (sideVolume b s + t.quantity)) := by
      rw [hstep.2.2, if_pos hpos]
    rcases eq_or_ne rest [] with hrest | hrest
    · subst hrest
      rw [happly]
      refine ⟨?_, ?_, ?_⟩
      · simpa [applyTrades, sumQ] using hvol1
      · simpa [applyTrades] using hcount1
      · simp only [applyTrades, List.foldl_nil]
        rw [hprice1]
        simp [sumPQ, sumQ]
    · have hrec := ih (b.update t)
        (by rw [hvol1]; linarith)
        (fun t1 ht1 => hside t1 (List.mem_cons_of_mem _ ht1))
        (fun t1 ht1 => hq t1 (List.mem_cons_of_mem _ ht1)) hrest
      rw [happly]
      refine ⟨?_, ?_, ?_⟩
      · rw [hrec.1, hvol1]
        simp [sumQ]
        ring
      · rw [hrec.2.1, hcount1]
        simp [List.length_cons]
        ring
      · rw [hrec.2.2, hprice1, hvol1]
        have hne0 : sideVolume b s + t.quantity ≠ 0 := ne_of_gt hpos
        congr 1
        rw [Option.getD_some]
        rw [div_mul_cancel₀ _ hne0]
        simp [sumPQ, sumQ]
        ring

/-- C1: a sequence of same-side trades with positive quantities applied to a
fresh buffer yields, on that side, VWAP `Σ(p_i·q_i) / Σq_i` exactly (rational
arithmetic), volume `Σq_i`, and count the number of trades applied. -/
theorem C1_same_side_vwap (s : Side) (ts : List Trade) (t0 : ℤ)
    (hside : ∀ t ∈ ts, t.side = s) (hq : ∀ t ∈ ts, 0 < t.quantity) (hne : ts ≠ []) :
    sidePrice (applyTrades (TradeCandleBuffer.new t0) ts) s = some (sumPQ ts / sumQ ts) ∧
    sideVolume (applyTrades (TradeCandleBuffer.new t0) ts) s = sumQ ts ∧
    sideCount (applyTrades (TradeCandleBuffer.new t0) ts) s = ts.length := by
  have hvol0 : sideVolume (TradeCandleBuffer.new t0) s = 0 := by
    cases s <;> rfl
  have hprice0 : sidePrice (TradeCandleBuffer.new t0) s = none := by
    cases s <;> rfl
  have hcount0 : sideCount (TradeCandleBuffer.new t0) s = 0 := by
    cases s <;> rfl
  have h := applyTrades_same_side s ts (TradeCandleBuffer.new t0)
    (by rw [hvol0]) hside hq hne
  refine ⟨?_, ?_, ?_⟩
  · rw [h.2.2, hvol0, hprice0]
    norm_num
  · rw [h.1, hvol0, zero_add]
  · rw [h.2.1, hcount0, zero_add]

/-- A second concrete buy trade used by the C1 witness. -/
def tradeBuy102 : Trade :=
  { exchange := "binance"
    market_type := MarketType.Spot
    symbol := "BTCUSDT"
    price := 102
    quantity := 1
    side := Side.Buy
    timestamp := 0 }

/-- Witness for C1: two buy trades (price 100, qty 1) and (price 102, qty 1)
give ask VWAP 101, ask volume 2, ask count 2. -/
theorem C1_same_side_vwap_witness :
    sidePrice (applyTrades (TradeCandleBuffer.new 0) [tradeBuy100, tradeBuy102]) Side.Buy
        = some 101 ∧
    sideVolume (applyTrades (TradeCandleBuffer.new 0) [tradeBuy100, tradeBuy102]) Side.Buy = 2 ∧
    sideCount (applyTrades (TradeCandleBuffer.new 0) [tradeBuy100, tradeBuy102]) Side.Buy = 2 := by
  have h := C1_same_side_vwap Side.Buy [tradeBuy100, tradeBuy102] 0
    (by intro t ht; simp only [List.mem_cons, List.not_mem_nil, or_false] at ht
        rcases ht with rfl | rfl <;> rfl)
    (by intro t ht; simp only [List.mem_cons, List.not_mem_nil, or_false] at ht
        rcases ht with rfl | rfl <;> norm_num [tradeBuy100, tradeBuy102])
    (by simp)
  refine ⟨?_, ?_, ?_⟩
  · rw [h.1]
    norm_num [sumPQ, sumQ, tradeBuy100, tradeBuy102]
  · rw [h.2.1]
    norm_num [sumQ, tradeBuy100, tradeBuy102]
  · rw [h.2.2]
    rfl

/-- A trade whose quantity was coerced to 0.0 by an adapter's lossy parse
(e.g. binance.rs:102 `unwrap_or(0.0)`). -/
def zeroQtyTrade : Trade :=
  { exchange := "binance"
    market_type := MarketType.Spot
    symbol := "BTCUSDT"
    price := 0
    quantity := 0
    side := Side.Buy
    timestamp := 0 }

/-- C2 counterexample: one zero-quantity trade on a fresh buffer yields
ask count 1 with ask price still null and ask volume still 0, so the invariant
`count == 0 ⇔ price == null` fails on a reachable state. -/
theorem C2_counterexample_zero_quantity :
    ¬ bufferInvariant ((TradeCandleBuffer.new 0).update zeroQtyTrade) := by
  intro h
  have h1 := h.1.1
  norm_num [sideInvariant, sideCount, sidePrice, TradeCandleBuffer.update,
    TradeCandleBuffer.new, zeroQtyTrade] at h1

/-- Strengthened induction invariant: the spec §3 invariant together with
non-negative volumes and counts. -/
def strongInv (b : TradeCandleBuffer) : Prop :=
  bufferInvariant b ∧ 0 ≤ b.ask_volume ∧ 0 ≤ b.bid_volume ∧
    0 ≤ b.ask_count ∧ 0 ≤ b.bid_count

lemma strongInv_new (t0 : ℤ) : strongInv (TradeCandleBuffer.new t0) := by
  refine ⟨⟨⟨by simp [sideCount, sidePrice, TradeCandleBuffer.new],
    by simp [sidePrice, sideVolume, TradeCandleBuffer.new]⟩,
    ⟨by simp [sideCount, sidePrice, TradeCandleBuffer.new],
      by simp [sidePrice, sideVolume, TradeCandleBuffer.new]⟩⟩, ?_, ?_, ?_, ?_⟩ <;>
    simp [TradeCandleBuffer.new]

lemma strongInv_update (b : TradeCandleBuffer) (t : Trade) (hb : strongInv b)
    (hq : 0 < t.quantity) : strongInv (b.update t) := by
  obtain ⟨⟨hbuy, hsell⟩, hav, hbv, hac, hbc⟩ := hb
  cases h : t.side with
  | Buy =>
    have hpos : b.ask_volume + t.quantity > 0 := by linarith
    have hcne : b.ask_count + 1 ≠ 0 := by omega
    have hvne : b.ask_volume + t.quantity ≠ 0 := ne_of_gt hpos
    refine ⟨⟨⟨?_, ?_⟩, ?_⟩, ?_, ?_, ?_, ?_⟩ <;>
      simp_all [TradeCandleBuffer.update, sideInvariant, sideCount, sidePrice,
        sideVolume, h, hpos] <;> first | omega | linarith
  | Sell =>
    have hpos : b.bid_volume + t.quantity > 0 := by linarith
    have hcne : b.bid_count + 1 ≠ 0 := by omega
    have hvne : b.bid_volume + t.quantity ≠ 0 := ne_of_gt hpos
    refine ⟨⟨⟨?_, ?_⟩, ?_⟩, ?_, ?_, ?_, ?_⟩ <;>
      simp_all [TradeCandleBuffer.update, sideInvariant, sideCount, sidePrice,
        sideVolume, h, hpos] <;> first | omega | linarith

/-- C2 (amended): the invariant `count == 0 ⇔ price == null ⇔ volume == 0`
holds after `TradeCandleBuffer::new` and is preserved by every update whose
trade has strictly positive quantity; it is *not* preserved by trades whose
quantity was coerced to 0.0 (see the counterexample). -/
theorem C2_invariant_positive_quantities (t0 : ℤ) (ts : List Trade)
    (hq : ∀ t ∈ ts, 0 < t.quantity) :
    bufferInvariant (applyTrades (TradeCandleBuffer.new t0) ts) := by
  have main : ∀ (ts1 : List Trade) (b : TradeCandleBuffer),
      (∀ t ∈ ts1, 0 < t.quantity) → strongInv b → strongInv (applyTrades b ts1) := by
    intro ts1
    induction ts1 with
    | nil => intro b _ hb; exact hb
    | cons t rest ih =>
      intro b hq1 hb
      exact ih (b.update t) (fun t1 ht1 => hq1 t1 (List.mem_cons_of_mem _ ht1))
        (strongInv_update b t hb (hq1 t (List.mem_cons_self _ _)))
  exact (main ts (TradeCandleBuffer.new t0) hq (strongInv_new t0)).1

/-- Witness for C2: the invariant after one concrete positive-quantity trade. -/
theorem C2_invariant_positive_quantities_witness :
    bufferInvariant (applyTrades (TradeCandleBuffer.new 0) [tradeBuy100]) :=
  C2_invariant_positive_quantities 0 [tradeBuy100]
    (by intro t ht
        simp only [List.mem_cons, List.not_mem_nil, or_false] at ht
        subst ht
        norm_num [tradeBuy100])

lemma mapLookup_nil (k : BufferKey) : mapLookup [] k = none := rfl

lemma mapLookup_cons (p : BufferKey × TradeCandleBuffer) (m : BufferMap) (k : BufferKey) :
    mapLookup (p :: m) k = if p.1 = k then some p.2 else mapLookup m k := by
  by_cases h : p.1 = k
  · rw [if_pos h]
    unfold mapLookup
    rw [List.find?_cons_of_pos _ (by simp [h])]
    rfl
  · rw [if_neg h]
    unfold mapLookup
    rw [List.find?_cons_of_neg _ (by simp [h])]

lemma mapLookup_append_single (m : BufferMap) (k k1 : BufferKey) (v : TradeCandleBuffer) :
    mapLookup (m ++ [(k, v)]) k1 =
      (mapLookup m k1).orElse (fun _ => if k = k1 then some v else none) := by
  induction m with
  | nil => simp [mapLookup_nil, mapLookup_cons, Option.orElse]
  | cons p rest ih =>
    rw [List.cons_append, mapLookup_cons, mapLookup_cons]
    by_cases h : p.1 = k1 <;> simp [h, ih, Option.orElse]

lemma mapLookup_mapModify (m : BufferMap) (k k1 : BufferKey)
    (f : TradeCandleBuffer → TradeCandleBuffer) :
    mapLookup (m.map (fun p => if p.1 = k then (p.1, f p.2) else p)) k1 =
      if k = k1 then (mapLookup m k1).map f else mapLookup m k1 := by
  induction m with
  | nil => by_cases h : k = k1 <;> simp [mapLookup_nil, h]
  | cons p rest ih =>
    rw [List.map_cons]
    by_cases hp : p.1 = k
    · rw [if_pos hp, mapLookup_cons, mapLookup_cons]
      by_cases h1 : p.1 = k1
      · have hk1 : k = k1 := hp ▸ h1
        simp [h1, hk1]
      · have : ¬ k = k1 := fun hc => h1 (hp.trans hc)
        simp [h1, this, ih]
    · rw [if_neg hp, mapLookup_cons, mapLookup_cons]
      by_cases h1 : p.1 = k1
      · have : ¬ k = k1 := fun hc => hp (hc ▸ h1)
        simp [h1, this]
      · simp [h1, ih]

lemma mapLookup_entryUpdate_self (m : BufferMap) (k : BufferKey)
    (f : TradeCandleBuffer → TradeCandleBuffer) (dflt : TradeCandleBuffer) :
    mapLookup (entryUpdate m k f dflt) k =
      some (match mapLookup m k with | some b => f b | none => dflt) := by
  unfold entryUpdate
  cases h : mapLookup m k with
  | none => simp [mapLookup_append_single, h, Option.orElse]
  | some b => simp [mapLookup_mapModify, h]

lemma mapLookup_entryUpdate_other (m : BufferMap) (k k1 : BufferKey)
    (f : TradeCandleBuffer → TradeCandleBuffer) (dflt : TradeCandleBuffer)
    (hne : k ≠ k1) :
    mapLookup (entryUpdate m k f dflt) k1 = mapLookup m k1 := by
  unfold entryUpdate
  cases h : mapLookup m k with
  | none =>
    rw [mapLookup_append_single, if_neg hne]
    cases h1 : mapLookup m k1 <;> simp [Option.orElse]
  | some b => rw [mapLookup_mapModify, if_neg hne]

lemma tradeKey_ne_of_timeframe_ne (t : Trade) (T1 T2 : ℕ) (h : T1 ≠ T2) :
    tradeKey t T1 ≠ tradeKey t T2 := by
  intro hc
  exact h (congrArg BufferKey.timeframe hc)

lemma foldl_processTimeframe_not_mem (t : Trade) (tfs : List ℕ) (T : ℕ)
    (hT : T ∉ tfs) :
    ∀ m : BufferMap,
      mapLookup (tfs.foldl (processTimeframe t) m) (tradeKey t T) =
        mapLookup m (tradeKey t T) := by
  induction tfs with
  | nil => intro m; rfl
  | cons tf rest ih =>
    intro m
    have hne : T ≠ tf := fun hc => hT (hc ▸ List.mem_cons_self _ _)
    have hrest : T ∉ rest := fun hc => hT (List.mem_cons_of_mem _ hc)
    rw [List.foldl_cons, ih hrest]
    exact mapLookup_entryUpdate_other _ _ _ _ _
      (tradeKey_ne_of_timeframe_ne t tf T (Ne.symm hne))

lemma foldl_processTimeframe_mem (t : Trade) (tfs : List ℕ) (T : ℕ)
    (hT : T ∈ tfs) (hnd : tfs.Nodup) :
    ∀ m : BufferMap,
      mapLookup (tfs.foldl (processTimeframe t) m) (tradeKey t T) =
        some (match mapLookup m (tradeKey t T) with
              | some b => b.update t
              | none => (TradeCandleBuffer.new t.timestamp).update t) := by
  induction tfs with
  | nil => cases hT
  | cons tf rest ih =>
    intro m
    rw [List.nodup_cons] at hnd
    by_cases hEq : T = tf
    · subst hEq
      rw [List.foldl_cons, foldl_processTimeframe_not_mem t rest T hnd.1]
      exact mapLookup_entryUpdate_self m (tradeKey t T) _ _
    · have hTrest : T ∈ rest := by
        rcases List.mem_cons.mp hT with h | h
        · exact absurd h hEq
        · exact h
      rw [List.foldl_cons, ih hTrest hnd.2 (processTimeframe t m tf)]
      have hl : mapLookup (processTimeframe t m tf) (tradeKey t T) =
          mapLookup m (tradeKey t T) :=
        mapLookup_entryUpdate_other _ _ _ _ _
          (tradeKey_ne_of_timeframe_ne t tf T (fun hc => hEq hc.symm))
      rw [hl]

/-- C4: processing one trade updates the buffer of every configured timeframe:
for each timeframe of the builder's (duplicate-free) timeframe list, the buffer
keyed (exchange, market_type, symbol, timeframe) is created from
`TradeCandleBuffer::new(trade.timestamp)` if absent, and receives exactly one
`update` with this trade. -/
theorem C4_process_trade_updates_every_timeframe (builder : TradeCandleBuilder)
    (t : Trade) (T : ℕ) (hT : T ∈ builder.timeframes) (hnd : builder.timeframes.Nodup) :
    mapLookup (builder.process_trade t).buffers (tradeKey t T) =
      some (match mapLookup builder.buffers (tradeKey t T) with
            | some b => b.update t
            | none => (TradeCandleBuffer.new t.timestamp).update t) :=
  foldl_processTimeframe_mem t builder.timeframes T hT hnd builder.buffers

/-- Witness for C4: with timeframes [1, 5] and no buffers, one trade creates
the 5s buffer as the freshly updated buffer. -/
theorem C4_process_trade_updates_every_timeframe_witness :
    mapLookup ((TradeCandleBuilder.mk [1, 5] []).process_trade tradeBuy100).buffers
        (tradeKey tradeBuy100 5) =
      some ((TradeCandleBuffer.new 0).update tradeBuy100) := by
  have h := C4_process_trade_updates_every_timeframe (TradeCandleBuilder.mk [1, 5] [])
    tradeBuy100 5 (by simp) (by simp)
  rw [h]
  rfl

lemma mapLookup_filter_timeframe (m : BufferMap) (T : ℕ) (k : BufferKey)
    (hk : k.timeframe = T) :
    mapLookup (m.filter (fun p => decide (p.1.timeframe ≠ T))) k = none := by
  induction m with
  | nil => rfl
  | cons p rest ih =>
    by_cases hp : p.1.timeframe ≠ T
    · rw [List.filter_cons_of_pos (by simpa using hp), mapLookup_cons]
      have : p.1 ≠ k := fun hc => hp (by rw [hc, hk])
      rw [if_neg this]
      exact ih
    · rw [List.filter_cons_of_neg (by simpa using hp)]
      exact ih

/-- C3: after `flush_candles_for_timeframe(T)` no buffer keyed with timeframe T
remains, whether or not a candle was emitted for it; and the next trade
processed for a flushed (exchange, market_type, symbol, T) key finds no buffer,
so it creates a fresh one whose count for the trade's side is 1. -/
theorem C3_flush_removes_then_fresh_buffer (builder : TradeCandleBuilder) (T : ℕ)
    (t : Trade) (hT : T ∈ builder.timeframes) (hnd : builder.timeframes.Nodup) :
    (∀ k : BufferKey, k.timeframe = T →
        mapLookup (builder.flush_candles_for_timeframe T).1.buffers k = none) ∧
    mapLookup (((builder.flush_candles_for_timeframe T).1.process_trade t)).buffers
        (tradeKey t T)
      = some ((TradeCandleBuffer.new t.timestamp).update t) ∧
    sideCount ((TradeCandleBuffer.new t.timestamp).update t) t.side = 1 := by
  have hremove : ∀ k : BufferKey, k.timeframe = T →
      mapLookup (builder.flush_candles_for_timeframe T).1.buffers k = none := by
    intro k hk
    exact mapLookup_filter_timeframe builder.buffers T k hk
  refine ⟨hremove, ?_, ?_⟩
  · have h := foldl_processTimeframe_mem t
      (builder.flush_candles_for_timeframe T).1.timeframes T hT hnd
      (builder.flush_candles_for_timeframe T).1.buffers
    rw [show (((builder.flush_candles_for_timeframe T).1.process_trade t)).buffers =
        (builder.flush_candles_for_timeframe T).1.timeframes.foldl (processTimeframe t)
          (builder.flush_candles_for_timeframe T).1.buffers from rfl]
    rw [h, hremove (tradeKey t T) rfl]
  · cases h : t.side <;>
      simp [TradeCandleBuffer.update, TradeCandleBuffer.new, sideCount, h]

/-- The one-buffer builder used by the C3 witness. -/
def builder5 : TradeCandleBuilder :=
  TradeCandleBuilder.mk [5]
    [(tradeKey tradeBuy100 5, (TradeCandleBuffer.new 0).update tradeBuy100)]

/-- Witness for C3: flushing the 5s timeframe empties the concrete builder's
5s key, and the next trade for that key restarts at count 1. -/
theorem C3_flush_removes_then_fresh_buffer_witness :
    mapLookup (builder5.flush_candles_for_timeframe 5).1.buffers
        (tradeKey tradeBuy100 5) = none ∧
    mapLookup (((builder5.flush_candles_for_timeframe 5).1.process_trade
        tradeBuy102)).buffers (tradeKey tradeBuy102 5)
      = some ((TradeCandleBuffer.new 0).update tradeBuy102) ∧
    sideCount ((TradeCandleBuffer.new 0).update tradeBuy102) tradeBuy102.side = 1 := by
  have h := C3_flush_removes_then_fresh_buffer builder5 5 tradeBuy102
    (by simp [builder5]) (by simp [builder5])
  exact ⟨h.1 (tradeKey tradeBuy100 5) rfl, h.2.1, h.2.2⟩

/-- A buy trade carrying a pre-epoch timestamp (second −1), as an adapter
produces from a negative exchange-supplied millisecond timestamp. -/
def tradeBuyNeg : Trade :=
  { exchange := "binance"
    market_type := MarketType.Spot
    symbol := "BTCUSDT"
    price := 100
    quantity := 1
    side := Side.Buy
    timestamp := -1 }

/-- The buffer the builder creates for `tradeBuyNeg`. -/
def bufferNeg : TradeCandleBuffer :=
  (TradeCandleBuffer.new (-1)).update tradeBuyNeg

/-- C6 counterexample: flushing a buffer whose first-trade timestamp is −1 at
timeframe 5 emits bucket timestamp 0 (Rust `i64` division truncates toward
zero), while floor alignment demands −5: the claim fails for negative
timestamps. -/
theorem C6_counterexample_negative_timestamp :
    (flushEmitted [(tradeKey tradeBuyNeg 5, bufferNeg)] 5).map TradeCandle.timestamp
        = [0] ∧
    Int.fdiv bufferNeg.timestamp 5 * 5 = -5 := by
  constructor
  · decide
  · decide

/-- C6 (amended): for every buffer emitted on flush with timeframe T whose
first-trade timestamp is non-negative (every post-epoch trade), the emitted
candle's bucket timestamp equals `floor(bufferFirstTradeTimestamp / T) * T`;
Rust's truncating division only coincides with floor division there. -/
theorem C6_bucket_timestamp_floor_aligned (m : BufferMap) (T : ℕ) (k : BufferKey)
    (b : TradeCandleBuffer) (hmem : (k, b) ∈ m) (htf : k.timeframe = T)
    (hcount : 0 < b.ask_count ∨ 0 < b.bid_count) (hts : 0 ≤ b.timestamp) :
    (b.to_trade_candle k.exchange k.market_type k.symbol (T : ℤ)) ∈ flushEmitted m T ∧
    (b.to_trade_candle k.exchange k.market_type k.symbol (T : ℤ)).timestamp
      = Int.fdiv b.timestamp (T : ℤ) * (T : ℤ) := by
  constructor
  · exact List.mem_map_of_mem _ (List.mem_filter.mpr ⟨hmem,
      by rcases hcount with h | h <;> simp [htf, h]⟩)
  · show Int.tdiv b.timestamp (T : ℤ) * (T : ℤ) = Int.fdiv b.timestamp (T : ℤ) * (T : ℤ)
    rw [Int.tdiv_eq_ediv hts (Int.ofNat_nonneg T), Int.fdiv_eq_ediv _ (Int.ofNat_nonneg T)]

/-- A buy trade at second 7, bucketed to 5 by a 5s timeframe. -/
def tradeBuy7 : Trade :=
  { exchange := "binance"
    market_type := MarketType.Spot
    symbol := "BTCUSDT"
    price := 100
    quantity := 1
    side := Side.Buy
    timestamp := 7 }

/-- Witness for C6 (amended) at a concrete one-buffer map: first trade at
second 7, timeframe 5, bucket timestamp 5. -/
theorem C6_bucket_timestamp_floor_aligned_witness :
    (((TradeCandleBuffer.new 7).update tradeBuy7).to_trade_candle "binance"
        MarketType.Spot "BTCUSDT" (5 : ℤ)) ∈
      flushEmitted [(tradeKey tradeBuy7 5, (TradeCandleBuffer.new 7).update tradeBuy7)] 5 ∧
    (((TradeCandleBuffer.new 7).update tradeBuy7).to_trade_candle "binance"
        MarketType.Spot "BTCUSDT" (5 : ℤ)).timestamp = 5 := by
  have h := C6_bucket_timestamp_floor_aligned
    [(tradeKey tradeBuy7 5, (TradeCandleBuffer.new 7).update tradeBuy7)] 5
    (tradeKey tradeBuy7 5) ((TradeCandleBuffer.new 7).update tradeBuy7)
    (List.mem_singleton.mpr rfl) rfl
    (Or.inl (by decide)) (by decide)
  exact ⟨h.1, h.2.trans (by decide)⟩

lemma value_eq_of_keyNodup (m : BufferMap) (k : BufferKey) (b1 b2 : TradeCandleBuffer)
    (hnd : (m.map Prod.fst).Nodup) (h1 : (k, b1) ∈ m) (h2 : (k, b2) ∈ m) : b1 = b2 := by
  induction m with
  | nil => cases h1
  | cons p rest ih =>
    rw [List.map_cons, List.nodup_cons] at hnd
    rcases List.mem_cons.mp h1 with e1 | m1 <;> rcases List.mem_cons.mp h2 with e2 | m2
    · exact congrArg Prod.snd (e1.trans e2.symm)
    · exact absurd (List.mem_map_of_mem Prod.fst m2)
        (by simpa [← e1] using hnd.1)
    · exact absurd (List.mem_map_of_mem Prod.fst m1)
        (by simpa [← e2] using hnd.1)
    · exact ih hnd.2 m1 m2

/-- C7: on a flush trigger for timeframe T, a buffer whose ask and bid counts
are both zero produces no candle: no emitted candle carries its
(exchange, market_type, symbol) key. -/
theorem C7_empty_buffer_emits_no_candle (m : BufferMap) (T : ℕ) (k : BufferKey)
    (b : TradeCandleBuffer) (hnd : (m.map Prod.fst).Nodup) (hmem : (k, b) ∈ m)
    (htf : k.timeframe = T) (hask : b.ask_count = 0) (hbid : b.bid_count = 0) :
    ∀ c ∈ flushEmitted m T,
      ¬(c.exchange = k.exchange ∧ c.market_type = k.market_type ∧ c.symbol = k.symbol) := by
  rintro c hc ⟨he, hm, hs⟩
  unfold flushEmitted at hc
  rcases List.mem_map.mp hc with ⟨p, hp, hcp⟩
  rcases List.mem_filter.mp hp with ⟨hpm, hpred⟩
  simp only [Bool.and_eq_true, Bool.or_eq_true, decide_eq_true_eq] at hpred
  have hpe : p.1.exchange = k.exchange := by
    rw [← hcp] at he; exact he
  have hpmkt : p.1.market_type = k.market_type := by
    rw [← hcp] at hm; exact hm
  have hps : p.1.symbol = k.symbol := by
    rw [← hcp] at hs; exact hs
  have hkey : p.1 = k := by
    rcases p with ⟨⟨pe, pmkt, ps, pt⟩, pb⟩
    rcases k with ⟨ke, kmkt, ks, kt⟩
    simp only at hpe hpmkt hps
    subst hpe hpmkt hps
    simp only at htf hpred
    simp [htf, hpred.1]
  have hval : p.2 = b := by
    apply value_eq_of_keyNodup m k p.2 b hnd _ hmem
    rw [← hkey]
    exact hpm
  rw [hval, hask, hbid] at hpred
  rcases hpred.2 with h | h <;> exact absurd h (by norm_num)

/-- A buy trade on a second symbol, used by the C7 witness. -/
def tradeEth : Trade :=
  { exchange := "binance"
    market_type := MarketType.Spot
    symbol := "ETHUSDT"
    price := 10
    quantity := 1
    side := Side.Buy
    timestamp := 0 }

/-- The two-buffer map of the C7 witness: a never-updated BTCUSDT buffer next
to a one-trade ETHUSDT buffer, both at timeframe 5. -/
def mapC7 : BufferMap :=
  [(tradeKey tradeBuy100 5, TradeCandleBuffer.new 0),
    (tradeKey tradeEth 5, (TradeCandleBuffer.new 0).update tradeEth)]

/-- Witness for C7: the concrete candle flushed from the ETHUSDT buffer does
not carry the key of the empty BTCUSDT buffer. -/
theorem C7_empty_buffer_emits_no_candle_witness :
    ¬((((TradeCandleBuffer.new 0).update tradeEth).to_trade_candle
          (tradeKey tradeEth 5).exchange (tradeKey tradeEth 5).market_type
          (tradeKey tradeEth 5).symbol ((5 : ℕ) : ℤ)).exchange
        = (tradeKey tradeBuy100 5).exchange ∧
      (((TradeCandleBuffer.new 0).update tradeEth).to_trade_candle
          (tradeKey tradeEth 5).exchange (tradeKey tradeEth 5).market_type
          (tradeKey tradeEth 5).symbol ((5 : ℕ) : ℤ)).market_type
        = (tradeKey tradeBuy100 5).market_type ∧
      (((TradeCandleBuffer.new 0).update tradeEth).to_trade_candle
          (tradeKey tradeEth 5).exchange (tradeKey tradeEth 5).market_type
          (tradeKey tradeEth 5).symbol ((5 : ℕ) : ℤ)).symbol
        = (tradeKey tradeBuy100 5).symbol) :=
  C7_empty_buffer_emits_no_candle mapC7 5
    (tradeKey tradeBuy100 5) (TradeCandleBuffer.new 0)
    (by simp [mapC7, tradeKey, tradeBuy100, tradeEth])
    (List.mem_cons_self _ _) rfl rfl rfl
    _
    (List.mem_map_of_mem _ (List.mem_filter.mpr
      ⟨List.mem_cons_of_mem _ (List.mem_singleton.mpr rfl), by decide⟩))
